import Mathlib

/-!
Verification development for the daily report check bot (src/bot.py).

The bot inspects a chat channel's message history inside a daily
attendance window (18:00:00 to 23:59:59 KST, shifted back one day for
early-morning invocations), computes the eligible members who did not
post inside the window, and notifies them publicly and privately.

The embedding below models the pure logic of `src/bot.py` directly:
wall-clock datetimes become a `LocalDT` record, the Discord SDK calls
become explicit inputs (`RunInput`), and the messages the bot sends
become an explicit `Action` list.
-/

namespace ReportBot

/-- Wall-clock datetime in the fixed deployment timezone (KST, UTC+9).
`day` counts calendar days (an integer, so shifting by `timedelta(days=1)`
is `day - 1`); `hour`, `minute`, `second`, `micro` are the clock fields of
Python's `datetime`. -/
structure LocalDT where
  day : Int
  hour : Nat
  minute : Nat
  second : Nat
  micro : Nat
deriving DecidableEq

/-- Total microsecond timestamp of a wall-clock datetime, used to compare
message creation times against the window bounds (KST has a fixed offset,
so wall-clock order is timestamp order). -/
def toMicros (dt : LocalDT) : Int :=
  dt.day * 86400000000 + (dt.hour : Int) * 3600000000 + (dt.minute : Int) * 60000000
    + (dt.second : Int) * 1000000 + (dt.micro : Int)

/-- Embedding of `_today_range` (src/bot.py lines 86-99):
`start = now.replace(hour=18, minute=0, second=0, microsecond=0)`,
`end = now.replace(hour=23, minute=59, second=59, microsecond=0)`,
and both are shifted back one calendar day when `now.hour < 6`. -/
def today_range (now : LocalDT) : LocalDT × LocalDT :=
  let start : LocalDT := { now with hour := 18, minute := 0, second := 0, micro := 0 }
  let stop : LocalDT := { now with hour := 23, minute := 59, second := 59, micro := 0 }
  if now.hour < 6 then
    ({ start with day := start.day - 1 }, { stop with day := stop.day - 1 })
  else
    (start, stop)

/-- Embedding of the custom-window defaulting at the top of `check_reports`
(src/bot.py lines 114-115): `if custom_start is None or custom_end is None:
custom_start, custom_end = _today_range()`.  A partially supplied custom
window therefore falls through to the default for both bounds. -/
def resolveWindow (custom_start custom_end : Option LocalDT) (now : LocalDT) :
    LocalDT × LocalDT :=
  match custom_start, custom_end with
  | some s, some e => (s, e)
  | _, _ => today_range now

/-- A guild member as the bot sees it: numeric id, bot flag, and the
outcome of `channel.permissions_for(member).read_messages` for the (fixed)
report channel.  `none` models the `AttributeError` case of `_can_read`
(incomplete member or default-role data in the cache); `some b` models a
successful permission evaluation returning `b`. -/
structure Member where
  id : Nat
  bot : Bool
  perm : Option Bool
deriving DecidableEq

/-- A message in the report channel: author id and creation timestamp in
microseconds (same scale as `toMicros`). -/
structure Message where
  author_id : Nat
  created_at : Int
deriving DecidableEq

/-- Embedding of `_can_read` (src/bot.py lines 160-166): evaluate the
permission check, and fall back to `False` when it raises
`AttributeError` (modelled by `m.perm = none`). -/
def can_read (m : Member) : Bool :=
  match m.perm with
  | some b => b
  | none => false

/-- Embedding of the SDK call `channel.history(after=start, before=end,
limit=None)` (src/bot.py line 143): the Discord SDK's `after` and `before`
bounds are both exclusive, so the call yields the messages whose creation
time is strictly after `start` and strictly before `stop`.  `limit=None`
means no message is dropped, hence a plain filter over the channel's
messages. -/
def historyWindow (msgs : List Message) (start stop : Int) : List Message :=
  msgs.filter fun m => decide (start < m.created_at ∧ m.created_at < stop)

/-- Embedding of the reporter-set comprehension (src/bot.py lines 141-144):
the ids of the authors of the messages the history call yields.  Python
builds a `set`; only membership in it is ever used, so a list of author
ids with list membership is an equivalent model. -/
def reportersOf (msgs : List Message) (start stop : Int) : List Nat :=
  (historyWindow msgs start stop).map Message.author_id

/-- Embedding of the eligibility loop (src/bot.py lines 169-174): keep
every fetched member that is not a bot and passes `_can_read`. -/
def eligibleMembers (members : List Member) : List Member :=
  members.filter fun m => !m.bot && can_read m

/-- Embedding of the allow-list restriction (src/bot.py lines 187-188):
`if TARGET_MEMBER_IDS: eligible_members = [m for m in eligible_members if
m.id in TARGET_MEMBER_IDS]`.  Python's truthiness test on the set is
`targetIds ≠ []` here. -/
def applyTargetFilter (targetIds : List Nat) (eligible : List Member) :
    List Member :=
  if targetIds.isEmpty then eligible
  else eligible.filter fun m => decide (m.id ∈ targetIds)

/-- Embedding of the non-reporter computation (src/bot.py line 200):
`non_reporters = [m for m in eligible_members if m.id not in reporters]`. -/
def non_reporters (eligible : List Member) (reporters : List Nat) : List Member :=
  eligible.filter fun m => decide (m.id ∉ reporters)

/-- One observable outbound message of a run: the "all present"
confirmation, the public summary (carrying the ids it @-mentions), or a
direct-message attempt to one recipient. -/
inductive Action where
  | confirmSend : Action
  | summarySend : List Nat → Action
  | dmSend : Nat → Action
deriving DecidableEq

/-- Whether an action is a message to the public channel. -/
def Action.isChannelMsg : Action → Bool
  | .confirmSend => true
  | .summarySend _ => true
  | .dmSend _ => false

/-- Whether an action is a direct-message attempt. -/
def Action.isDm : Action → Bool
  | .dmSend _ => true
  | _ => false

/-- Discord SDK error classes the bot handles (src/bot.py catches
`NotFound`, `Forbidden` and `HTTPException`; `Forbidden` is the
permission error, the other two are transport/API failures). -/
inductive Exc where
  | notFound : Exc
  | forbidden : Exc
  | httpException : Exc
deriving DecidableEq

/-- True when an SDK call outcome is an exception. -/
def isError {ε α : Type} : Except ε α → Bool
  | .error _ => true
  | .ok _ => false

/-- Embedding of the direct-message loop (src/bot.py lines 217-227): for
each non-reporter, attempt `member.send`; the three `except` clauses (the
last one catching any `Exception`) turn every delivery failure into a
logged warning and the loop continues.  Returns the attempts in order and
the ids whose delivery failed (the warning log). -/
def dmLoop (dm : Nat → Except Exc Unit) : List Member → List Action × List Nat
  | [] => ([], [])
  | m :: rest =>
    let failLog : List Nat :=
      match dm m.id with
      | .ok _ => []
      | .error _ => [m.id]
    let tail := dmLoop dm rest
    (Action.dmSend m.id :: tail.1, failLog ++ tail.2)

/-- Embedding of the notification phase (src/bot.py lines 202-227): if
there are no non-reporters, send the single confirmation message and
return; otherwise send the single public summary that mentions every
non-reporter, then run the direct-message loop.  Returns the actions and
the failed-delivery log. -/
def notify (dm : Nat → Except Exc Unit) (nr : List Member) :
    List Action × List Nat :=
  if nr.isEmpty then ([Action.confirmSend], [])
  else
    let tail := dmLoop dm nr
    (Action.summarySend (nr.map Member.id) :: tail.1, tail.2)

/-- The external-world inputs of one `check_reports` run: the current
time, the outcomes of the SDK fetches (`fetch_channel`, the history read,
`fetch_members`), the `channel.guild`/`bot.user` presence checks, the
configured allow-list, and the per-recipient direct-message outcome. -/
structure RunInput where
  now : LocalDT
  fetchChannel : Except Exc Unit
  history : Except Exc (List Message)
  guildPresent : Bool
  botUserPresent : Bool
  membersList : Except Exc (List Member)
  targetIds : List Nat
  dm : Nat → Except Exc Unit

/-- Embedding of `check_reports` (src/bot.py lines 109-227), returning the
outbound messages of the run.  Each `except` clause that ends the run with
only a logged error becomes an empty action list; `history` carries the
channel's messages and the window filter models the SDK's exclusive
`after`/`before` bounds. -/
def check_reports (inp : RunInput)
    (custom_start custom_end : Option LocalDT) : List Action :=
  let w := resolveWindow custom_start custom_end inp.now
  match inp.fetchChannel with
  | .error _ => []
  | .ok _ =>
    match inp.history with
    | .error _ => []
    | .ok msgs =>
      if !inp.guildPresent then []
      else if !inp.botUserPresent then []
      else
        match inp.membersList with
        | .error _ => []
        | .ok members =>
          let eligible :=
            applyTargetFilter inp.targetIds (eligibleMembers members)
          let reporters := reportersOf msgs (toMicros w.1) (toMicros w.2)
          (notify inp.dm (non_reporters eligible reporters)).1

/-! Concrete sample data used by the closed witness and counterexample
theorems below. -/

/-- A direct-message oracle where every delivery succeeds. -/
def dmOk : Nat → Except Exc Unit := fun _ => Except.ok ()

/-- A direct-message oracle where every delivery raises `Forbidden`. -/
def dmFailAll : Nat → Except Exc Unit := fun _ => Except.error Exc.forbidden

/-- Sample human member with read permission, id 1. -/
def memA : Member := ⟨1, false, some true⟩

/-- Sample human member with read permission, id 2. -/
def memB : Member := ⟨2, false, some true⟩

/-- Sample human member with read permission, id 3. -/
def memC : Member := ⟨3, false, some true⟩

/-- Sample member whose permission check raises `AttributeError`. -/
def memNoPerm : Member := ⟨7, false, none⟩

/-- Sample invocation time: day 100, 12:00 local, so `_today_range`
anchors to day 100 and the window runs 18:00:00 to 23:59:59 of day 100. -/
def cNow : LocalDT := ⟨100, 12, 0, 0, 0⟩

/-- Sample invocation time exactly at the 06:00 boundary. -/
def witNow : LocalDT := ⟨100, 6, 0, 0, 0⟩

/-- Sample eligible member, id 42. -/
def cMember : Member := ⟨42, false, some true⟩

/-- A message by member 42 posted exactly at the window start timestamp
(18:00:00.000000 of day 100). -/
def cMsg : Message := ⟨42, toMicros (today_range cNow).1⟩

/-- A message by member 42 posted strictly inside the window
(19:00:00 of day 100). -/
def wMsg : Message := ⟨42, toMicros ⟨100, 19, 0, 0, 0⟩⟩

/-- A run whose only channel message is `cMsg` (posted exactly at the
window start) and whose only guild member is `cMember`; every SDK fetch
succeeds. -/
def cInput : RunInput where
  now := cNow
  fetchChannel := Except.ok ()
  history := Except.ok [cMsg]
  guildPresent := true
  botUserPresent := true
  membersList := Except.ok [cMember]
  targetIds := []
  dm := dmOk

/-- A run whose channel fetch fails with `Forbidden`. -/
def failInput : RunInput where
  now := cNow
  fetchChannel := Except.error Exc.forbidden
  history := Except.ok []
  guildPresent := true
  botUserPresent := true
  membersList := Except.ok []
  targetIds := []
  dm := dmOk

/-! Helper lemmas shared by several claim theorems. -/

/-- The direct-message loop attempts a delivery to every member of its
input, in input order, whatever the delivery outcomes are. -/
theorem dmLoop_attempts (dm : Nat → Except Exc Unit) (nr : List Member) :
    (dmLoop dm nr).1 = nr.map fun m => Action.dmSend m.id := by
  induction nr with
  | nil => rfl
  | cons m rest ih => simp [dmLoop, ih]

/-- Every member whose delivery outcome is an exception ends up in the
direct-message loop's warning log. -/
theorem dmLoop_log (dm : Nat → Except Exc Unit) (nr : List Member) (m : Member)
    (hm : m ∈ nr) (hf : isError (dm m.id) = true) :
    m.id ∈ (dmLoop dm nr).2 := by
  induction nr with
  | nil => cases hm
  | cons a rest ih =>
    have hsplit : (dmLoop dm (a :: rest)).2 =
        (match dm a.id with | .ok _ => [] | .error _ => [a.id])
          ++ (dmLoop dm rest).2 := rfl
    rw [hsplit]
    rcases List.mem_cons.mp hm with h | h
    · subst h
      cases hdm : dm m.id with
      | ok u => rw [hdm] at hf; simp [isError] at hf
      | error e => simp
    · exact List.mem_append_right _ (ih h)

/-! Claim theorems. -/

/-- C1: the `non_reporters` computation returns exactly the eligible
members whose identifier is not in the reporter set (membership
characterisation), and it is a sublist of the eligible-member input list,
hence preserves its relative order. -/
theorem c1_non_reporters_exact (eligible : List Member) (reporters : List Nat) :
    List.Sublist (non_reporters eligible reporters) eligible ∧
    ∀ m : Member, m ∈ non_reporters eligible reporters ↔
      (m ∈ eligible ∧ m.id ∉ reporters) := by
  refine ⟨List.filter_sublist _, ?_⟩
  intro m
  simp [non_reporters, List.mem_filter]

/-- C8: an empty reporter set (empty history) makes every eligible member
an absentee, and an empty eligible list yields no absentees whatever the
reporter set is. -/
theorem c8_degenerate_inputs (eligible : List Member) (reporters : List Nat) :
    non_reporters eligible [] = eligible ∧ non_reporters [] reporters = [] := by
  refine ⟨?_, rfl⟩
  simp [non_reporters]

/-- C2: the computed window is anchored to the current calendar day when
the local KST hour is at least 6 and to the previous day when it is
strictly below 6; the hour-6 boundary itself therefore uses today's
window. -/
theorem c2_window_anchor (now : LocalDT) :
    (6 ≤ now.hour →
      (today_range now).1.day = now.day ∧ (today_range now).2.day = now.day) ∧
    (now.hour < 6 →
      (today_range now).1.day = now.day - 1 ∧
      (today_range now).2.day = now.day - 1) := by
  constructor
  · intro h
    have hlt : ¬ now.hour < 6 := Nat.not_lt.mpr h
    simp [today_range, hlt]
  · intro h
    simp [today_range, h]

/-- C2 witness: an invocation at exactly 06:00 local time anchors to the
current day (day 100). -/
theorem c2_window_anchor_witness :
    (today_range witNow).1.day = witNow.day ∧
    (today_range witNow).2.day = witNow.day :=
  (c2_window_anchor witNow).1 (by decide)

/-- C10: supplying exactly one of the two custom window bounds discards
the supplied bound: both bounds are then taken from the default computed
window, exactly as when no custom bound is supplied at all; only a fully
specified custom window is used as given. -/
theorem c10_partial_custom_window (s e now : LocalDT) :
    resolveWindow (some s) none now = today_range now ∧
    resolveWindow none (some e) now = today_range now ∧
    resolveWindow none none now = today_range now ∧
    resolveWindow (some s) (some e) now = (s, e) :=
  ⟨rfl, rfl, rfl, rfl⟩

/-- C3 counterexample: a message posted exactly at the window start
timestamp (18:00:00.000000 of the anchor day) is not counted into the
reporter set, because the SDK's `after` bound is exclusive, so its author
IS listed as an absentee: the run posts the public summary mentioning
member 42 and attempts a direct message to member 42. -/
theorem c3_boundary_counterexample :
    cMsg.created_at = toMicros (today_range cNow).1 ∧
    cMsg.author_id = cMember.id ∧
    check_reports cInput none none =
      [Action.summarySend [cMember.id], Action.dmSend cMember.id] := by
  refine ⟨rfl, rfl, ?_⟩
  decide

/-- C3 amended: the attendance window bounds are exclusive, not inclusive:
a message is counted into the reporter set iff its timestamp is strictly
after the window start and strictly before the window end; a message
posted exactly at either bound is not counted, while a message strictly
inside the window puts its author into the reporter set, so that author
is not listed as an absentee. -/
theorem c3_amended_exclusive_bounds (msgs : List Message) (start stop : Int)
    (m : Message) :
    (m ∈ historyWindow msgs start stop ↔
      (m ∈ msgs ∧ start < m.created_at ∧ m.created_at < stop)) ∧
    ((m.created_at = start ∨ m.created_at = stop) →
      m ∉ historyWindow msgs start stop) ∧
    (m ∈ msgs → start < m.created_at → m.created_at < stop →
      m.author_id ∈ reportersOf msgs start stop ∧
      ∀ (eligible : List Member) (mem : Member), mem.id = m.author_id →
        mem ∉ non_reporters eligible (reportersOf msgs start stop)) := by
  have hmem : m ∈ historyWindow msgs start stop ↔
      (m ∈ msgs ∧ start < m.created_at ∧ m.created_at < stop) := by
    simp [historyWindow, List.mem_filter]
  refine ⟨hmem, ?_, ?_⟩
  · rintro (h | h) hin
    · exact absurd (hmem.mp hin).2.1 (by rw [h]; exact lt_irrefl start)
    · exact absurd (hmem.mp hin).2.2 (by rw [h]; exact lt_irrefl stop)
  · intro hin hlo hhi
    have hrep : m.author_id ∈ reportersOf msgs start stop :=
      List.mem_map.mpr ⟨m, hmem.mpr ⟨hin, hlo, hhi⟩, rfl⟩
    refine ⟨hrep, ?_⟩
    intro eligible mem hid hcon
    have := (List.mem_filter.mp hcon).2
    rw [hid] at this
    simp [hrep] at this

/-- C3 amended witness: a message strictly inside the window (19:00 of
day 100) is counted, and its author (member 42) is not an absentee. -/
theorem c3_amended_exclusive_bounds_witness :
    wMsg.author_id ∈ reportersOf [wMsg]
      (toMicros (today_range cNow).1) (toMicros (today_range cNow).2) ∧
    cMember ∉ non_reporters [cMember]
      (reportersOf [wMsg]
        (toMicros (today_range cNow).1) (toMicros (today_range cNow).2)) := by
  have h := (c3_amended_exclusive_bounds [wMsg]
      (toMicros (today_range cNow).1) (toMicros (today_range cNow).2) wMsg).2.2
      (by simp) (by decide) (by decide)
  exact ⟨h.1, h.2 [cMember] cMember rfl⟩

/-- C4: with no absentees the notifier sends exactly the single
confirmation message and attempts no direct message; with absentees it
sends exactly the single public summary mentioning every absentee,
followed by exactly one direct-message attempt per absentee, in order. -/
theorem c4_notify_shape (dm : Nat → Except Exc Unit) (nr : List Member) :
    (nr = [] → (notify dm nr).1 = [Action.confirmSend]) ∧
    (nr ≠ [] →
      (notify dm nr).1 =
        Action.summarySend (nr.map Member.id)
          :: nr.map (fun m => Action.dmSend m.id) ∧
      ∀ m ∈ nr, m.id ∈ nr.map Member.id) := by
  constructor
  · intro h
    subst h
    rfl
  · intro h
    have hne : nr.isEmpty = false := by
      cases nr with
      | nil => exact absurd rfl h
      | cons a l => rfl
    refine ⟨?_, ?_⟩
    · simp [notify, hne, dmLoop_attempts]
    · intro m hm
      exact List.mem_map.mpr ⟨m, hm, rfl⟩

/-- C4 witness: the two branches at concrete inputs, an empty absentee
list and the singleton list containing member 1. -/
theorem c4_notify_shape_witness :
    (notify dmOk []).1 = [Action.confirmSend] ∧
    (notify dmOk [memA]).1 =
      Action.summarySend ([memA].map Member.id)
        :: [memA].map (fun m => Action.dmSend m.id) :=
  ⟨(c4_notify_shape dmOk []).1 rfl,
   ((c4_notify_shape dmOk [memA]).2 (by simp)).1⟩

/-- C5: whatever the pattern of per-recipient delivery outcomes is, the
notifier's direct-message attempts are exactly one per absentee (no
failure aborts the remaining attempts), every failed recipient is logged,
and exactly one public channel message is sent. -/
theorem c5_dm_failure_isolation (dm : Nat → Except Exc Unit) (nr : List Member) :
    ((notify dm nr).1.filter Action.isDm =
      nr.map fun m => Action.dmSend m.id) ∧
    ((notify dm nr).1.countP Action.isChannelMsg = 1) ∧
    (∀ m ∈ nr, isError (dm m.id) = true → m.id ∈ (notify dm nr).2) := by
  have hfilter : ∀ l : List Member,
      (l.map fun m => Action.dmSend m.id).filter Action.isDm =
        l.map fun m => Action.dmSend m.id := by
    intro l
    refine List.filter_eq_self.mpr ?_
    intro a ha
    rcases List.mem_map.mp ha with ⟨m, _, rfl⟩
    rfl
  have hcount : ∀ l : List Member,
      (l.map fun m => Action.dmSend m.id).countP Action.isChannelMsg = 0 := by
    intro l
    refine List.countP_eq_zero.mpr ?_
    intro a ha
    rcases List.mem_map.mp ha with ⟨m, _, rfl⟩
    simp [Action.isChannelMsg]
  cases hnr : nr with
  | nil =>
    refine ⟨rfl, rfl, ?_⟩
    intro m hm
    cases hm
  | cons a l =>
    have hne : (a :: l).isEmpty = false := rfl
    refine ⟨?_, ?_, ?_⟩
    · simp [notify, hne, dmLoop_attempts, hfilter, Action.isDm]
    · simp [notify, hne, List.countP_cons, dmLoop_attempts, hcount,
        Action.isChannelMsg]
    · intro m hm hf
      have : (notify dm (a :: l)).2 = (dmLoop dm (a :: l)).2 := by
        simp [notify, hne]
      rw [this]
      exact dmLoop_log dm (a :: l) m hm hf

/-- C5 witness: with the singleton absentee list [member 1] and a
delivery oracle that always fails, the public message is still sent
exactly once and the failure is logged. -/
theorem c5_dm_failure_isolation_witness :
    ((notify dmFailAll [memA]).1.countP Action.isChannelMsg = 1) ∧
    memA.id ∈ (notify dmFailAll [memA]).2 :=
  ⟨(c5_dm_failure_isolation dmFailAll [memA]).2.1,
   (c5_dm_failure_isolation dmFailAll [memA]).2.2 memA (by simp) rfl⟩

/-- C6: if the channel fetch, the history read, or the member enumeration
fails with an SDK error (permission or transport), the run produces no
outbound message at all: no public channel message and no direct
message. -/
theorem c6_fetch_failure_aborts (inp : RunInput)
    (custom_start custom_end : Option LocalDT)
    (h : isError inp.fetchChannel = true ∨ isError inp.history = true ∨
         isError inp.membersList = true) :
    check_reports inp custom_start custom_end = [] := by
  unfold check_reports
  cases hc : inp.fetchChannel with
  | error e => rfl
  | ok u =>
    cases hh : inp.history with
    | error e => rfl
    | ok msgs =>
      cases hm : inp.membersList with
      | error e =>
        cases inp.guildPresent <;> cases inp.botUserPresent <;> rfl
      | ok members =>
        rw [hc] at h
        rw [hh] at h
        rw [hm] at h
        rcases h with h | h | h <;> simp [isError] at h

/-- C6 witness: a run whose channel fetch fails with `Forbidden` sends
nothing. -/
theorem c6_fetch_failure_aborts_witness :
    check_reports failInput none none = [] :=
  c6_fetch_failure_aborts failInput none none (Or.inl rfl)

/-- C7: when the allow-list is non-empty, eligibility is restricted to
exactly the eligible members whose identifier is in the allow-list; when
the allow-list is empty, the eligible list is left unrestricted and
consists of exactly the non-bot members passing the channel-read check. -/
theorem c7_allowlist_restriction (targetIds : List Nat)
    (members : List Member) :
    (targetIds ≠ [] →
      ∀ m : Member,
        m ∈ applyTargetFilter targetIds (eligibleMembers members) ↔
          (m ∈ eligibleMembers members ∧ m.id ∈ targetIds)) ∧
    (targetIds = [] →
      applyTargetFilter targetIds (eligibleMembers members) =
        eligibleMembers members ∧
      ∀ m : Member,
        m ∈ eligibleMembers members ↔
          (m ∈ members ∧ m.bot = false ∧ can_read m = true)) := by
  constructor
  · intro hne m
    have he : targetIds.isEmpty = false := by
      cases targetIds with
      | nil => exact absurd rfl hne
      | cons a l => rfl
    simp [applyTargetFilter, he, List.mem_filter]
  · intro he
    subst he
    refine ⟨rfl, ?_⟩
    intro m
    simp [eligibleMembers, List.mem_filter, and_assoc]

/-- C7 witness: with eligible members {1, 2, 3} and allow-list {1, 3},
member 1 is kept and member 2 is dropped. -/
theorem c7_allowlist_restriction_witness :
    memA ∈ applyTargetFilter [1, 3] (eligibleMembers [memA, memB, memC]) ∧
    memB ∉ applyTargetFilter [1, 3] (eligibleMembers [memA, memB, memC]) := by
  have h := (c7_allowlist_restriction [1, 3] [memA, memB, memC]).1 (by simp)
  constructor
  · exact (h memA).mpr ⟨by decide, by decide⟩
  · intro hmem
    exact absurd ((h memB).mp hmem).2 (by decide)

/-- C9: the per-member permission check is fail-closed: when the check
raises `AttributeError` (modelled by `perm = none`), `_can_read` returns
false and the member is excluded from the eligible list, with no run
failure (the eligibility computation is total and the member is simply
dropped). -/
theorem c9_perm_fail_closed (members : List Member) (m : Member)
    (h : m.perm = none) :
    can_read m = false ∧ m ∉ eligibleMembers members := by
  have hcr : can_read m = false := by
    unfold can_read
    rw [h]
  refine ⟨hcr, ?_⟩
  intro hmem
  have hp := (List.mem_filter.mp hmem).2
  rw [Bool.and_eq_true] at hp
  rw [hcr] at hp
  exact absurd hp.2 (by simp)

/-- C9 witness: member 7, whose permission check raises, is excluded from
the eligible list of a roster containing only them. -/
theorem c9_perm_fail_closed_witness :
    can_read memNoPerm = false ∧ memNoPerm ∉ eligibleMembers [memNoPerm] :=
  c9_perm_fail_closed [memNoPerm] memNoPerm rfl

end ReportBot
